import Mathlib

/-!
Shallow embedding of the wikigraph repository for specification checking.

The embedding covers:
- the relational schema (`pages`, `links`, `page_fetch`) from
  `backend/scripts/fix_discovered_status.sql`;
- the frontend read API `fetchEgoGraph` from `frontend/lib/api.ts`;
- the Wikipedia client helpers `fetchWikipediaPageData` and
  `batchFetchWikipediaData` from `frontend/lib/api.ts`, and the server-side
  `fetchWikipediaPageData` from the analyze-relationships wiki-utils module;
- the dashboard display helper `formatError`;
- the job-store operations (`claimNext`, link insertion) whose backend
  implementation is not part of the sources, modelled from the spec.

Timestamps are modelled as natural numbers, database bigints as `Int`,
JavaScript strings as `String` (lengths count characters rather than UTF-16
code units), and table states as lists of row structures in table order.
-/

/-! ## Relational schema (backend/scripts sql) -/

/-- A row of the `pages` table.  Columns transcribed from the
`create table pages` statement; `namespace` is a Lean keyword, so the column
is named `page_namespace` here. -/
structure PageRow where
  page_id : Int
  title : String
  page_namespace : Int := 0
  is_redirect : Bool := false
  redirect_target_id : Option Int := none
  summary : Option String := none
  thumbnail_url : Option String := none
  out_degree : Int := 0
  in_degree : Int := 0
  created_at : Nat := 0
  updated_at : Nat := 0
  deriving DecidableEq, Repr

/-- A row of the `links` table: `(from_page_id, to_page_id, created_at)`
with primary key `(from_page_id, to_page_id)`. -/
structure LinkRow where
  from_page_id : Int
  to_page_id : Int
  created_at : Nat := 0
  deriving DecidableEq, Repr

/-- Column names of the `page_fetch` table, transcribed from the
`create table page_fetch` statement. -/
def pageFetchColumns : List String :=
  ["page_id", "status", "priority", "started_at", "finished_at",
   "last_error", "last_cursor", "requested_by", "updated_at"]

/-- A row of the `page_fetch` table.  The `last_cursor jsonb` column is an
opaque serialized blob, modelled as an optional string. -/
structure PageFetchRow where
  page_id : Int
  status : String
  priority : Int
  started_at : Option Nat
  finished_at : Option Nat
  last_error : Option String
  last_cursor : Option String
  requested_by : Option String
  updated_at : Nat
  deriving DecidableEq, Repr

/-- The check constraint
`status in ('queued','running','done','error','paused','discovered')`
on `page_fetch` (also re-created by `fix_discovered_status.sql` as
`page_fetch_status_check`). -/
def page_fetch_status_check (s : String) : Bool :=
  s == "queued" || s == "running" || s == "done" || s == "error" ||
    s == "paused" || s == "discovered"

/-- A `page_fetch` row the database admits: its status satisfies the check
constraint. -/
def validPageFetchRow (r : PageFetchRow) : Bool :=
  page_fetch_status_check r.status

/-- Primary-key invariant of the `links` table: the multiset of
`(from_page_id, to_page_id)` pairs has no duplicates. -/
def linksPK (links : List LinkRow) : Prop :=
  (links.map fun l => (l.from_page_id, l.to_page_id)).Nodup

/-- Foreign-key invariant of the `links` table: both endpoints of every link
reference an existing `pages` row. -/
def linksFK (pages : List PageRow) (links : List LinkRow) : Prop :=
  ∀ l ∈ links, (∃ p ∈ pages, p.page_id = l.from_page_id) ∧
    (∃ p ∈ pages, p.page_id = l.to_page_id)

/-- Modelled from the spec: the Graph Merge `mergeLinks` edge insertion is
not among the sources (the backend crawler implementation is absent); the
spec states that re-insertion of an already-present edge is silently
ignored (insert-on-conflict-do-nothing against the `links` primary key). -/
def insertLink (links : List LinkRow) (s t : Int) (now : Nat) : List LinkRow :=
  if links.any fun l => l.from_page_id == s && l.to_page_id == t then links
  else links ++ [{ from_page_id := s, to_page_id := t, created_at := now }]

/-! ## Frontend read API (frontend/lib/api.ts) -/

/-- The `GraphNode` interface of `frontend/lib/api.ts`. -/
structure GraphNode where
  page_id : Int
  title : String
  out_degree : Int
  in_degree : Int
  is_center : Bool
  deriving DecidableEq, Repr

/-- The `GraphEdge` interface of `frontend/lib/api.ts`; `from` is a Lean
keyword, hence the guillemets. -/
structure GraphEdge where
  «from» : Int
  «to» : Int
  deriving DecidableEq, Repr

/-- The `GraphEgoResponse` interface of `frontend/lib/api.ts`. -/
structure GraphEgoResponse where
  center_page_id : Int
  nodes : List GraphNode
  edges : List GraphEdge
  deriving DecidableEq, Repr

/-- Database state visible to the frontend read API. -/
structure DB where
  pages : List PageRow
  links : List LinkRow
  deriving Repr

/-- `fetchEgoGraph(pageId, limitNeighbors)` from `frontend/lib/api.ts`.

Returns the response together with the number of database queries the call
performs.  The steps mirror the source: a `.single()` lookup of the center
(one query; on error or absence the function returns
`{center_page_id: pageId, nodes: [], edges: []}` immediately), then limited
out-link and in-link queries, a page-details query over the collected ids,
and an edge query restricted on both endpoints (five queries in total).
JavaScript `Set` insertion-order deduplication is modelled with
`List.dedup`; every later use of the id collections is membership-only, so
the element order of the deduplicated list is immaterial. -/
def fetchEgoGraph (db : DB) (pageId : Int) (limitNeighbors : Nat) :
    GraphEgoResponse × Nat :=
  match db.pages.find? fun p => p.page_id == pageId with
  | none => ({ center_page_id := pageId, nodes := [], edges := [] }, 1)
  | some _ =>
    let outLinks := (db.links.filter fun l => l.from_page_id == pageId).take limitNeighbors
    let inLinks := (db.links.filter fun l => l.to_page_id == pageId).take limitNeighbors
    let neighborIds := ((outLinks.map fun l => l.to_page_id) ++
      (inLinks.map fun l => l.from_page_id)).dedup
    let allNodeIds := (pageId :: neighborIds).dedup
    let pagesData := db.pages.filter fun p => p.page_id ∈ allNodeIds
    let nodes : List GraphNode := pagesData.map fun p =>
      { page_id := p.page_id, title := p.title, out_degree := p.out_degree,
        in_degree := p.in_degree, is_center := p.page_id == pageId }
    let allEdges := db.links.filter fun l =>
      l.from_page_id ∈ allNodeIds ∧ l.to_page_id ∈ allNodeIds
    let edges : List GraphEdge := allEdges.map fun l =>
      { «from» := l.from_page_id, «to» := l.to_page_id }
    ({ center_page_id := pageId, nodes := nodes, edges := edges }, 5)

/-- The direct neighbors of a center page as the claim describes them:
targets of links whose source is the center and sources of links whose
target is the center. -/
def egoNeighbors (db : DB) (pageId : Int) : List Int :=
  (((db.links.filter fun l => l.from_page_id == pageId).map fun l => l.to_page_id) ++
    ((db.links.filter fun l => l.to_page_id == pageId).map fun l => l.from_page_id)).dedup

/-- The ego-graph correctness property as the claim states it: the response
contains the center node, a node for every direct neighbor, and exactly the
links-table edges whose endpoints both lie in the center-plus-neighbors
set. -/
def egoClaim (db : DB) (pageId : Int) (limitNeighbors : Nat) : Prop :=
  let resp := (fetchEgoGraph db pageId limitNeighbors).1
  let nbrs := egoNeighbors db pageId
  (∃ n ∈ resp.nodes, n.page_id = pageId ∧ n.is_center = true) ∧
  (∀ q ∈ nbrs, ∃ n ∈ resp.nodes, n.page_id = q) ∧
  (∀ e ∈ resp.edges, ∃ l ∈ db.links,
    l.from_page_id = e.«from» ∧ l.to_page_id = e.«to» ∧
    l.from_page_id ∈ pageId :: nbrs ∧ l.to_page_id ∈ pageId :: nbrs) ∧
  (∀ l ∈ db.links, l.from_page_id ∈ pageId :: nbrs →
    l.to_page_id ∈ pageId :: nbrs →
    ∃ e ∈ resp.edges, e.«from» = l.from_page_id ∧ e.«to» = l.to_page_id)

/-! ## Dashboard display helper (admin dashboard, part of the static app) -/

/-- `formatError` from the admin dashboard jobs table: a falsy error (null,
undefined, or the empty string) renders as a dash; otherwise strings longer
than 50 characters are truncated to their first 50 characters plus an
ellipsis. -/
def formatError (error : Option String) : String :=
  match error with
  | none => "-"
  | some e => if e = "" then "-" else
      if e.length > 50 then e.take 50 ++ "..." else e

/-! ## Wikipedia client (frontend/lib/api.ts and the analyze-relationships
wiki-utils module) -/

/-- An outbound HTTP request: target URL and explicit request headers.  A
`fetch(url)` call with no init object carries an empty explicit header
list. -/
structure HttpRequest where
  url : String
  headers : List (String × String)
  deriving DecidableEq, Repr

/-- The fallback client string of the server-side `fetchWikipediaPageData`
in wiki-utils, used when the `WIKIPEDIA_USER_AGENT` environment variable is
unset. -/
def WIKIPEDIA_DEFAULT_USER_AGENT : String :=
  "WikiGraphExplorer/1.0 (https://github.com/yourusername/wikiGraph; contact@example.com)"

/-- The outbound requests issued by the server-side
`fetchWikipediaPageData(pageId, fetchFullText)` of wiki-utils, in call
order: the title lookup, the intro extract, the categories query, and
(only when `fetchFullText` is set) the raw-wikitext fetch.  The first three
carry the User-Agent and Accept headers; the raw-text fetch carries only
the User-Agent header.  Percent-encoding of the title interpolation is not
modelled. -/
def wikiUtilsPageDataRequests (pageId : Int) (title : String)
    (fetchFullText : Bool) (envUserAgent : Option String) : List HttpRequest :=
  let userAgent := envUserAgent.getD WIKIPEDIA_DEFAULT_USER_AGENT
  let headers := [("User-Agent", userAgent), ("Accept", "application/json")]
  let titleUrl := "https://en.wikipedia.org/w/api.php?action=query&pageids=" ++
    toString pageId ++ "&prop=info&inprop=url&format=json&origin=*"
  let extractUrl := "https://en.wikipedia.org/w/api.php?action=query&pageids=" ++
    toString pageId ++ "&prop=extracts&exintro=true&explaintext=true&format=json&origin=*"
  let categoriesUrl := "https://en.wikipedia.org/w/api.php?action=query&pageids=" ++
    toString pageId ++ "&prop=categories&cllimit=50&format=json&origin=*"
  let rawTextUrl := "https://en.wikipedia.org/w/index.php?title=" ++ title ++ "&action=raw"
  [{ url := titleUrl, headers := headers },
   { url := extractUrl, headers := headers },
   { url := categoriesUrl, headers := headers }] ++
    (if fetchFullText then [{ url := rawTextUrl, headers := [("User-Agent", userAgent)] }] else [])

/-- `WIKI_API_BASE` of `frontend/lib/api.ts`. -/
def WIKI_API_BASE : String := "https://en.wikipedia.org/w/api.php"

/-- The `URLSearchParams` query string built by the `frontend/lib/api.ts`
Wikipedia helpers; the pipe separator of the `prop` list is percent-encoded
as `%7C` by `URLSearchParams`. -/
def wikipediaQueryParams (pageids : String) : String :=
  "action=query&format=json&pageids=" ++ pageids ++
    "&prop=extracts%7Ccategories%7Cinfo&exintro=false&explaintext=true&cllimit=max&origin=*"

/-- The single outbound request of `fetchWikipediaPageData` in
`frontend/lib/api.ts`: `fetch` is called with the URL only, so no explicit
headers are attached. -/
def fetchWikipediaPageDataRequest (pageId : Int) : HttpRequest :=
  { url := WIKI_API_BASE ++ "?" ++ wikipediaQueryParams (toString pageId), headers := [] }

/-- `Boolean(r.headers)` test for an identifying client string: whether the
request carries a User-Agent header. -/
def hasUserAgent (r : HttpRequest) : Bool :=
  r.headers.any fun h => h.1 == "User-Agent"

/-- The batching loop of `batchFetchWikipediaData`:
`for (let i = 0; i < pageIds.length; i += batchSize)` with
`batchSize = 50` slices the input into consecutive chunks of at most 50
elements. -/
def wikiBatches {α : Type} : List α → List (List α)
  | [] => []
  | x :: xs => ((x :: xs).take 50) :: wikiBatches ((x :: xs).drop 50)
  termination_by l => l.length
  decreasing_by simp; omega

/-- The outbound requests of `batchFetchWikipediaData` in
`frontend/lib/api.ts`: one per batch, page ids joined with a pipe
(percent-encoded by `URLSearchParams`), and, as in the source, `fetch`
called with the URL only, so no explicit headers. -/
def batchFetchWikipediaDataRequests (pageIds : List Int) : List HttpRequest :=
  (wikiBatches pageIds).map fun batch =>
    { url := WIKI_API_BASE ++ "?" ++
        wikipediaQueryParams (String.intercalate "%7C" (batch.map toString)),
      headers := [] }

/-- One entry of the `query.pages` object of a Wikipedia API response:
either the `missing` marker or the page fields used by the helpers. -/
structure WikiApiPage where
  missing : Bool
  extract : Option String
  categories : List String
  title : Option String
  deriving DecidableEq, Repr

/-- The value stored per page by the Wikipedia helpers: extract defaulted
to the empty string, category titles with a leading `Category:` stripped
(nine characters), and the title defaulted to the empty string. -/
structure WikiPageData where
  extract : String
  categories : List String
  title : String
  deriving DecidableEq, Repr

/-- `title.startsWith('Category:') ? title.slice(9) : title` from the
category mapping of the helpers. -/
def stripCategory (t : String) : String :=
  if "Category:".isPrefixOf t then t.drop 9 else t

/-- The record built for a non-missing response page. -/
def wikiPageData (page : WikiApiPage) : WikiPageData :=
  { extract := page.extract.getD "",
    categories := page.categories.map stripCategory,
    title := page.title.getD "" }

/-- JavaScript `Map.set` on an association list: replace the value at an
existing key, else append the binding. -/
def mapSet (m : List (Int × WikiPageData)) (k : Int) (v : WikiPageData) :
    List (Int × WikiPageData) :=
  if m.any fun p => p.1 == k then
    m.map fun p => if p.1 == k then (k, v) else p
  else m ++ [(k, v)]

/-- JavaScript `Map.get` on an association list. -/
def mapGet (m : List (Int × WikiPageData)) (k : Int) : Option WikiPageData :=
  (m.find? fun p => p.1 == k).map fun p => p.2

/-- One iteration of the `batchFetchWikipediaData` loop.  The external API
is modelled by `ok` (whether the batch HTTP response succeeds; on failure
the source skips the batch with `continue`) and `pagesResp` (the
`query.pages` entry returned for a requested page id, consistent across
batches).  For each id of the batch, a present, non-missing page entry
yields a stored record; a missing or absent entry yields nothing. -/
def processWikiBatch (ok : List Int → Bool) (pagesResp : Int → Option WikiApiPage)
    (batch : List Int) : List (Int × WikiPageData) :=
  if ok batch then
    batch.filterMap fun pid =>
      match pagesResp pid with
      | some page => if page.missing then none else some (pid, wikiPageData page)
      | none => none
  else []

/-- The key-value entries `batchFetchWikipediaData` feeds into its result
map, in loop order. -/
def wikiEntries (ok : List Int → Bool) (pagesResp : Int → Option WikiApiPage)
    (pageIds : List Int) : List (Int × WikiPageData) :=
  ((wikiBatches pageIds).map (processWikiBatch ok pagesResp)).flatten

/-- `batchFetchWikipediaData(pageIds)` from `frontend/lib/api.ts`: the
result map after iterating `result.set` over every batch. -/
def batchFetchWikipediaData (ok : List Int → Bool)
    (pagesResp : Int → Option WikiApiPage) (pageIds : List Int) :
    List (Int × WikiPageData) :=
  (wikiEntries ok pagesResp pageIds).foldl (fun m kv => mapSet m kv.1 kv.2) []

/-! ## Job store (modelled from the spec) -/

/-- Modelled from the spec: the closed status variant of a CrawlJob row.
The backend Job Store implementation is not among the sources; the status
values are those of the `page_fetch` check constraint. -/
inductive JobStatus where
  | queued
  | running
  | done
  | error
  | paused
  | discovered
  deriving DecidableEq, Repr

/-- Modelled from the spec: a CrawlJob row as used by `claimNext`, with the
`page_fetch` columns (status as the closed variant type). -/
structure CrawlJob where
  page_id : Int
  status : JobStatus
  priority : Int
  started_at : Option Nat := none
  finished_at : Option Nat := none
  last_error : Option String := none
  last_cursor : Option String := none
  requested_by : Option String := none
  updated_at : Nat := 0
  deriving DecidableEq, Repr

/-- Job `b` is claimed before job `a`: strictly higher priority, or equal
priority and strictly older last-update time (FIFO among equal
priority). -/
def betterJob (b a : CrawlJob) : Bool :=
  b.priority > a.priority || (b.priority == a.priority && b.updated_at < a.updated_at)

/-- Modelled from the spec: the row `claimNext` selects — the queued row of
highest priority, ties broken by oldest `updated_at`. -/
def selectQueued : List CrawlJob → Option CrawlJob
  | [] => none
  | j :: rest =>
    let r := selectQueued rest
    if j.status = JobStatus.queued then
      match r with
      | none => some j
      | some b => if betterJob b j then some b else some j
    else r

/-- The claim-time transition: status to `running`, `started_at` stamped;
the database trigger also refreshes `updated_at`. -/
def startJob (j : CrawlJob) (now : Nat) : CrawlJob :=
  { j with status := JobStatus.running, started_at := some now, updated_at := now }

/-- Modelled from the spec: `claimNext(workerId)` as a single atomic
transaction — select the best queued row, transition it to `running` in
place (update keyed on the `page_id` primary key), and return it; with no
eligible row, return nothing and leave the store unchanged.  Atomicity
means concurrent callers execute as some sequential interleaving of such
transactions. -/
def claimNext (now : Nat) (st : List CrawlJob) : Option CrawlJob × List CrawlJob :=
  match selectQueued st with
  | none => (none, st)
  | some j =>
    (some (startJob j now),
     st.map fun x => if x.page_id == j.page_id then startJob x now else x)

/-- N concurrent callers of `claimNext`, sequentialized by claim
atomicity: the list of per-caller results. -/
def runClaims : Nat → Nat → List CrawlJob → List (Option CrawlJob)
  | 0, _, _ => []
  | Nat.succ n, now, st =>
    let r := claimNext now st
    r.1 :: runClaims n now r.2

/-- Number of `queued` rows in the store. -/
def countQueued (st : List CrawlJob) : Nat :=
  (st.filter fun j => j.status == JobStatus.queued).length

/-! ## Concrete witness data -/

/-- A small concrete database: three pages, center page 1 linking to pages
2 and 3. -/
def exDB : DB :=
  { pages := [{ page_id := 1, title := "A" }, { page_id := 2, title := "B" },
              { page_id := 3, title := "C" }],
    links := [{ from_page_id := 1, to_page_id := 2 },
              { from_page_id := 1, to_page_id := 3 }] }

/-- A concrete job store with exactly one queued job. -/
def exJobs : List CrawlJob :=
  [{ page_id := 1, status := JobStatus.queued, priority := 5 },
   { page_id := 2, status := JobStatus.done, priority := 9 }]

/-- A concrete batch-response model: every batch request succeeds. -/
def exOk : List Int → Bool := fun _ => true

/-- A missing response page. -/
def exMissingPage : WikiApiPage :=
  { missing := true, extract := none, categories := [], title := none }

/-- A found response page. -/
def exGoodPage : WikiApiPage :=
  { missing := false, extract := some "Extract", categories := ["Category:Dogs"],
    title := some "Dog" }

/-- A concrete `query.pages` response model: page 1 is reported missing,
page 2 is found, everything else is absent. -/
def exPagesResp : Int → Option WikiApiPage := fun pid =>
  if pid = 1 then some exMissingPage
  else if pid = 2 then some exGoodPage
  else none

/-! ## Theorems -/

/-- C3: every `page_fetch` row the database admits has a status drawn from
exactly the six values queued, running, done, error, paused, discovered,
and the column set of the table is exactly page_id, status, priority,
started_at, finished_at, last_error, last_cursor (jsonb), requested_by,
updated_at — a row is precisely a tuple of these nine columns. -/
theorem page_fetch_schema :
    (∀ r : PageFetchRow, validPageFetchRow r = true ↔
      r.status ∈ ["queued", "running", "done", "error", "paused", "discovered"]) ∧
    pageFetchColumns = ["page_id", "status", "priority", "started_at",
      "finished_at", "last_error", "last_cursor", "requested_by", "updated_at"] ∧
    (∀ r : PageFetchRow,
      r = ⟨r.page_id, r.status, r.priority, r.started_at, r.finished_at,
           r.last_error, r.last_cursor, r.requested_by, r.updated_at⟩) := by
  refine ⟨fun r => ?_, rfl, fun r => rfl⟩
  simp [validPageFetchRow, page_fetch_status_check, or_assoc]

/-- C5 counterexample: the `page_fetch` table has no column recording the
BFS depth of the job or the identifier of its crawl root. -/
theorem page_fetch_no_depth_no_root :
    "depth" ∉ pageFetchColumns ∧ "bfs_depth" ∉ pageFetchColumns ∧
    "root_page_id" ∉ pageFetchColumns ∧ "root_id" ∉ pageFetchColumns := by
  decide

/-- C5 amended: a CrawlJob row records exactly the nine `page_fetch`
columns — status, priority, started and finished timestamps, last error,
resumption cursor, requester tag and last-update timestamp besides the
page id — and records neither a BFS depth nor a root page identifier. -/
theorem crawljob_recorded_columns :
    pageFetchColumns = ["page_id", "status", "priority", "started_at",
      "finished_at", "last_error", "last_cursor", "requested_by", "updated_at"] ∧
    ("depth" ∉ pageFetchColumns ∧ "root_page_id" ∉ pageFetchColumns) ∧
    (∀ r : PageFetchRow,
      r = ⟨r.page_id, r.status, r.priority, r.started_at, r.finished_at,
           r.last_error, r.last_cursor, r.requested_by, r.updated_at⟩) :=
  ⟨rfl, by decide, fun r => rfl⟩

/-- C9 counterexample: an empty-string error is present and has length at
most 50, yet the dashboard renders a dash rather than the string itself,
because the source tests JavaScript falsiness rather than absence. -/
theorem formatError_empty_string_counterexample :
    formatError (some "") = "-" ∧ ("" : String).length ≤ 50 ∧
      formatError (some "") ≠ "" := by
  refine ⟨rfl, by decide, by decide⟩

/-- C9 amended: the dashboard renders a dash when the error is absent or
empty, the string itself when it is nonempty with at most 50 characters,
and its first 50 characters followed by an ellipsis otherwise. -/
theorem formatError_display :
    formatError none = "-" ∧ formatError (some "") = "-" ∧
    (∀ s : String, s ≠ "" → s.length ≤ 50 → formatError (some s) = s) ∧
    (∀ s : String, 50 < s.length → formatError (some s) = s.take 50 ++ "...") := by
  refine ⟨rfl, rfl, fun s hne hle => ?_, fun s hgt => ?_⟩
  · simp [formatError, hne]
    omega
  · have hne : s ≠ "" := by
      intro h
      subst h
      simp at hgt
    simp [formatError, hne, hgt]

/-- C9 amended, concrete instance: a short nonempty error is displayed
verbatim. -/
theorem formatError_display_witness :
    (("boom" : String) ≠ "" ∧ ("boom" : String).length ≤ 50) ∧
      formatError (some "boom") = "boom" :=
  ⟨⟨by decide, by decide⟩, formatError_display.2.2.1 "boom" (by decide) (by decide)⟩

/-- Under the links primary key, at most one row carries a given
`(from_page_id, to_page_id)` pair. -/
theorem linksPK_filter_le_one (links : List LinkRow) (a b : Int)
    (h : linksPK links) :
    (links.filter fun l => l.from_page_id = a ∧ l.to_page_id = b).length ≤ 1 := by
  induction links with
  | nil => simp
  | cons l ls ih =>
    rw [linksPK, List.map_cons, List.nodup_cons] at h
    by_cases hl : l.from_page_id = a ∧ l.to_page_id = b
    · have hrest : (ls.filter fun x => x.from_page_id = a ∧ x.to_page_id = b) = [] := by
        rw [List.filter_eq_nil_iff]
        intro x hx hpx
        simp only [decide_eq_true_eq] at hpx
        exact h.1 (by
          rw [List.mem_map]
          exact ⟨x, hx, by rw [hpx.1, hpx.2, hl.1, hl.2]⟩)
      rw [List.filter_cons_of_pos (by simpa using hl), hrest]
      simp
    · simpa [List.filter_cons, hl] using ih h.2

/-- C2: the links table is a set of directed edges, not a multiset — under
the `(from_page_id, to_page_id)` primary key at most one row exists per
pair, insertion preserves the key invariant, and inserting an
already-present edge leaves the table unchanged. -/
theorem links_edge_uniqueness (links : List LinkRow) (s t : Int) (now : Nat) :
    (linksPK links → ∀ a b : Int,
      (links.filter fun l => l.from_page_id = a ∧ l.to_page_id = b).length ≤ 1) ∧
    (linksPK links → linksPK (insertLink links s t now)) ∧
    ((∃ l ∈ links, l.from_page_id = s ∧ l.to_page_id = t) →
      insertLink links s t now = links) := by
  refine ⟨fun h a b => linksPK_filter_le_one links a b h, fun h => ?_, fun h => ?_⟩
  · by_cases hany : links.any fun l => l.from_page_id == s && l.to_page_id == t
    · rw [insertLink, if_pos hany]
      exact h
    · rw [insertLink, if_neg hany, linksPK, List.map_append]
      rw [List.any_eq_true] at hany
      push_neg at hany
      have hnotin : (s, t) ∉ links.map fun l => (l.from_page_id, l.to_page_id) := by
        rw [List.mem_map]
        rintro ⟨l, hl, hpair⟩
        exact hany l hl (by
          simp only [Bool.and_eq_true, beq_iff_eq]
          exact ⟨congrArg Prod.fst hpair, congrArg Prod.snd hpair⟩)
      refine List.Nodup.append h (List.nodup_singleton _) ?_
      intro x hx hx1
      simp only [List.map_cons, List.map_nil, List.mem_singleton] at hx1
      subst hx1
      exact hnotin hx
  · obtain ⟨l, hl, h1, h2⟩ := h
    rw [insertLink, if_pos]
    rw [List.any_eq_true]
    exact ⟨l, hl, by simp [h1, h2]⟩

/-- C2, concrete instance: re-inserting the already-present edge (1, 2)
into the example links table is a no-op, and the pair count is at most
one. -/
theorem links_edge_uniqueness_witness :
    ((exDB.links.filter fun l => l.from_page_id = 1 ∧ l.to_page_id = 2).length ≤ 1) ∧
      insertLink exDB.links 1 2 7 = exDB.links :=
  ⟨(links_edge_uniqueness exDB.links 1 2 7).1 (by unfold linksPK; decide) 1 2,
   (links_edge_uniqueness exDB.links 1 2 7).2.2 ⟨{ from_page_id := 1, to_page_id := 2 },
     by decide, rfl, rfl⟩⟩

/-- C6 counterexample: the Wikipedia requests issued by the
`frontend/lib/api.ts` helpers — the single-page fetch and the batch
fetch — carry no User-Agent header at all, because `fetch` is called
without an init object. -/
theorem api_ts_wikipedia_requests_no_user_agent :
    hasUserAgent (fetchWikipediaPageDataRequest 42) = false ∧
    (batchFetchWikipediaDataRequests [42]).all (fun r => !(hasUserAgent r)) = true := by
  have hb : wikiBatches ([42] : List Int) = [[42]] := by
    rw [wikiBatches, List.take_of_length_le (by simp),
      List.drop_eq_nil_of_le (by simp), wikiBatches]
  constructor
  · rfl
  · rw [batchFetchWikipediaDataRequests, hb]
    rfl

/-- C6 amended: every outbound request of the server-side
`fetchWikipediaPageData` helper of the analyze-relationships wiki-utils
module carries a User-Agent header (the configured client string or the
built-in fallback); the client-side helpers in `frontend/lib/api.ts` attach
no explicit headers. -/
theorem wikiUtilsPageDataRequests_user_agent (pageId : Int) (title : String)
    (fetchFullText : Bool) (envUserAgent : Option String) :
    (wikiUtilsPageDataRequests pageId title fetchFullText envUserAgent).all
      hasUserAgent = true := by
  cases fetchFullText <;> simp [wikiUtilsPageDataRequests, hasUserAgent]

/-- The batches of the `batchFetchWikipediaData` loop concatenate back to
the input list. -/
theorem wikiBatches_flatten {α : Type} : ∀ l : List α, (wikiBatches l).flatten = l
  | [] => by rw [wikiBatches]; rfl
  | x :: xs => by
    rw [wikiBatches, List.flatten_cons, wikiBatches_flatten ((x :: xs).drop 50),
      List.take_append_drop]
  termination_by l => l.length
  decreasing_by simp; omega

/-- Every batch of the `batchFetchWikipediaData` loop is nonempty and no
longer than the 50-id API limit. -/
theorem wikiBatches_size {α : Type} : ∀ l : List α, ∀ b ∈ wikiBatches l,
    b.length ≤ 50 ∧ b ≠ []
  | [] => by rw [wikiBatches]; intro b hb; cases hb
  | x :: xs => by
    rw [wikiBatches]
    intro b hb
    rcases List.mem_cons.mp hb with h | h
    · subst h
      exact ⟨List.length_take_le 50 (x :: xs), by simp⟩
    · exact wikiBatches_size ((x :: xs).drop 50) b h
  termination_by l => l.length
  decreasing_by simp; omega

/-- C8: `batchFetchWikipediaData` partitions its input into consecutive
batches of at most 50 page ids — the batches concatenate back to the input,
so every id occurrence is sent in exactly one request, each request carries
between 1 and 50 ids, and the loop issues exactly one request per batch and
terminates (the batching function is total). -/
theorem batchFetchWikipediaData_batching (pageIds : List Int) :
    (wikiBatches pageIds).flatten = pageIds ∧
    (∀ b ∈ wikiBatches pageIds, b.length ≤ 50 ∧ b ≠ []) ∧
    (batchFetchWikipediaDataRequests pageIds).length = (wikiBatches pageIds).length := by
  exact ⟨wikiBatches_flatten pageIds, wikiBatches_size pageIds,
    List.length_map _ _⟩

/-- `Map.set` followed by `Map.get` at the same key yields the new
value. -/
theorem mapGet_mapSet_self (m : List (Int × WikiPageData)) (k : Int)
    (v : WikiPageData) : mapGet (mapSet m k v) k = some v := by
  by_cases hany : m.any fun p => p.1 == k
  · rw [mapSet, if_pos hany, mapGet, List.find?_map]
    have hpred : ((fun q : Int × WikiPageData => q.1 == k) ∘
        fun p : Int × WikiPageData => if p.1 == k then (k, v) else p) =
        fun p : Int × WikiPageData => p.1 == k := by
      funext p
      by_cases hp : p.1 = k
      · simp [hp]
      · simp [hp]
    rw [hpred]
    rw [List.any_eq_true] at hany
    obtain ⟨q, hq⟩ := Option.isSome_iff_exists.mp (List.find?_isSome.mpr hany)
    have hqk := List.find?_some hq
    have hqk2 : q.1 = k := by simpa using hqk
    rw [hq]
    simp [hqk2]
  · rw [mapSet, if_neg hany, mapGet, List.find?_append]
    rw [Bool.not_eq_true, List.any_eq_false] at hany
    rw [List.find?_eq_none.mpr hany]
    simp [List.find?_cons]

/-- `Map.set` at one key leaves `Map.get` at a different key unchanged. -/
theorem mapGet_mapSet_ne (m : List (Int × WikiPageData)) (k2 k : Int)
    (v : WikiPageData) (h : k2 ≠ k) : mapGet (mapSet m k2 v) k = mapGet m k := by
  by_cases hany : m.any fun p => p.1 == k2
  · rw [mapSet, if_pos hany, mapGet, List.find?_map]
    have hpred : ((fun q : Int × WikiPageData => q.1 == k) ∘
        fun p : Int × WikiPageData => if p.1 == k2 then (k2, v) else p) =
        fun p : Int × WikiPageData => p.1 == k := by
      funext p
      by_cases hp : p.1 = k2
      · simp [hp, h]
      · simp [hp]
    rw [hpred, mapGet]
    cases hf : m.find? fun p : Int × WikiPageData => p.1 == k
    · simp
    · rename_i q
      have hqk : q.1 = k := by simpa using List.find?_some hf
      have hq2 : ¬ q.1 = k2 := fun hc => h (hc.symm.trans hqk)
      simp [hq2]
  · rw [mapSet, if_neg hany, mapGet, List.find?_append, mapGet]
    cases hf : m.find? fun p : Int × WikiPageData => p.1 == k
    · simp [List.find?_cons, beq_eq_false_iff_ne.mpr h]
    · simp

/-- `Map.get` after folding `Map.set` over a list of entries whose values
agree at key `k`: the constant value when some entry carries `k`, the prior
binding otherwise. -/
theorem mapGet_foldl (k : Int) (v : WikiPageData) :
    ∀ (E : List (Int × WikiPageData)) (m : List (Int × WikiPageData)),
      (∀ e ∈ E, e.1 = k → e.2 = v) →
      mapGet (E.foldl (fun acc kv => mapSet acc kv.1 kv.2) m) k =
        if ∃ e ∈ E, e.1 = k then some v else mapGet m k
  | [], m, _ => by simp
  | e :: E, m, h => by
    rw [List.foldl_cons,
      mapGet_foldl k v E (mapSet m e.1 e.2) (fun x hx => h x (List.mem_cons_of_mem e hx))]
    by_cases hek : e.1 = k
    · have hev : e.2 = v := h e (List.mem_cons_self e E) hek
      by_cases hE : ∃ e2 ∈ E, e2.1 = k
      · rw [if_pos hE, if_pos ⟨e, List.mem_cons_self e E, hek⟩]
      · rw [if_neg hE, if_pos ⟨e, List.mem_cons_self e E, hek⟩, hek, hev]
        exact mapGet_mapSet_self m k v
    · by_cases hE : ∃ e2 ∈ E, e2.1 = k
      · obtain ⟨e2, he2, he2k⟩ := hE
        rw [if_pos ⟨e2, he2, he2k⟩, if_pos ⟨e2, List.mem_cons_of_mem e he2, he2k⟩]
      · have hnc : ¬ ∃ e2 ∈ e :: E, e2.1 = k := by
          rintro ⟨e2, he2, he2k⟩
          rcases List.mem_cons.mp he2 with h1 | h1
          · exact hek (h1 ▸ he2k)
          · exact hE ⟨e2, h1, he2k⟩
        rw [if_neg hE, if_neg hnc]
        exact mapGet_mapSet_ne m e.1 k e.2 hek

/-- Characterization of the entries `batchFetchWikipediaData` feeds into
its result map when every batch response succeeds: exactly the requested
ids whose response page is present and not missing, paired with the
extracted record. -/
theorem mem_wikiEntries (ok : List Int → Bool) (pagesResp : Int → Option WikiApiPage)
    (pageIds : List Int) (hok : ∀ b, ok b = true) (e : Int × WikiPageData) :
    e ∈ wikiEntries ok pagesResp pageIds ↔
      e.1 ∈ pageIds ∧ ∃ page, pagesResp e.1 = some page ∧ page.missing = false ∧
        e.2 = wikiPageData page := by
  rw [wikiEntries, List.mem_flatten]
  constructor
  · rintro ⟨l, hl, hel⟩
    rw [List.mem_map] at hl
    obtain ⟨b, hb, rfl⟩ := hl
    rw [processWikiBatch, if_pos (hok b), List.mem_filterMap] at hel
    obtain ⟨pid, hpid, hstep⟩ := hel
    rcases hresp : pagesResp pid with - | page
    · rw [hresp] at hstep
      simp at hstep
    · rw [hresp] at hstep
      by_cases hm : page.missing = true
      · simp [hm] at hstep
      · simp only [Bool.not_eq_true] at hm
        simp [hm] at hstep
        subst hstep
        refine ⟨?_, page, hresp, hm, rfl⟩
        rw [← wikiBatches_flatten pageIds, List.mem_flatten]
        exact ⟨b, hb, hpid⟩
  · rintro ⟨hmem, page, hresp, hmiss, hval⟩
    rw [← wikiBatches_flatten pageIds, List.mem_flatten] at hmem
    obtain ⟨b, hb, hpid⟩ := hmem
    refine ⟨processWikiBatch ok pagesResp b, List.mem_map.mpr ⟨b, hb, rfl⟩, ?_⟩
    rw [processWikiBatch, if_pos (hok b), List.mem_filterMap]
    refine ⟨e.1, hpid, ?_⟩
    rw [hresp]
    simp [hmiss, ← hval]

/-- C7: when the external API reports a requested page id as missing,
`batchFetchWikipediaData` drops it silently — the result map holds no entry
for it — while every other id of the input whose response page is present
and not missing is still resolved to its extracted record. -/
theorem batchFetchWikipediaData_missing_dropped (ok : List Int → Bool)
    (pagesResp : Int → Option WikiApiPage) (pageIds : List Int) (pid : Int)
    (hok : ∀ b, ok b = true)
    (hmiss : ∀ page, pagesResp pid = some page → page.missing = true) :
    mapGet (batchFetchWikipediaData ok pagesResp pageIds) pid = none ∧
    (∀ q ∈ pageIds, ∀ page, pagesResp q = some page → page.missing = false →
      mapGet (batchFetchWikipediaData ok pagesResp pageIds) q =
        some (wikiPageData page)) := by
  constructor
  · rw [batchFetchWikipediaData,
      mapGet_foldl pid (wikiPageData exGoodPage) (wikiEntries ok pagesResp pageIds) []
        (fun e he hek => by
          rw [mem_wikiEntries ok pagesResp pageIds hok] at he
          obtain ⟨-, page, hresp, hm, -⟩ := he
          rw [hek] at hresp
          rw [hmiss page hresp] at hm
          cases hm)]
    rw [if_neg]
    · rfl
    · rintro ⟨e, he, hek⟩
      rw [mem_wikiEntries ok pagesResp pageIds hok] at he
      obtain ⟨-, page, hresp, hm, -⟩ := he
      rw [hek] at hresp
      rw [hmiss page hresp] at hm
      cases hm
  · intro q hq page hresp hmissq
    rw [batchFetchWikipediaData,
      mapGet_foldl q (wikiPageData page) (wikiEntries ok pagesResp pageIds) []
        (fun e he hek => by
          rw [mem_wikiEntries ok pagesResp pageIds hok] at he
          obtain ⟨-, page2, hresp2, -, hval2⟩ := he
          rw [hek, hresp] at hresp2
          injection hresp2 with hresp2
          rw [hval2, hresp2])]
    rw [if_pos]
    exact ⟨(q, wikiPageData page),
      (mem_wikiEntries ok pagesResp pageIds hok (q, wikiPageData page)).mpr
        ⟨hq, page, hresp, hmissq, rfl⟩, rfl⟩

/-- C7, concrete instance: with page 1 reported missing and page 2 found,
the batch resolution of [1, 2] holds no entry for 1 and resolves 2. -/
theorem batchFetchWikipediaData_missing_dropped_witness :
    mapGet (batchFetchWikipediaData exOk exPagesResp [1, 2]) 1 = none ∧
    mapGet (batchFetchWikipediaData exOk exPagesResp [1, 2]) 2 =
      some (wikiPageData exGoodPage) := by
  have h := batchFetchWikipediaData_missing_dropped exOk exPagesResp [1, 2] 1
    (fun b => rfl)
    (fun page hp => by
      rw [show exPagesResp 1 = some exMissingPage from rfl] at hp
      injection hp with hp
      rw [← hp]
      rfl)
  exact ⟨h.1, h.2 2 (by decide) exGoodPage rfl rfl⟩

/-- The claim-order comparison as linear arithmetic. -/
theorem betterJob_iff (b a : CrawlJob) : betterJob b a = true ↔
    (a.priority < b.priority ∨
      (b.priority = a.priority ∧ b.updated_at < a.updated_at)) := by
  simp [betterJob]

/-- The negated claim-order comparison as linear arithmetic. -/
theorem betterJob_false_iff (b a : CrawlJob) : betterJob b a = false ↔
    (b.priority < a.priority ∨
      (b.priority = a.priority ∧ a.updated_at ≤ b.updated_at)) := by
  rw [← Bool.not_eq_true, betterJob_iff]
  constructor
  · intro h
    omega
  · intro h
    omega

/-- No job is claimed before itself. -/
theorem betterJob_irrefl (a : CrawlJob) : betterJob a a = false := by
  rw [betterJob_false_iff]
  omega

/-- The claim order is asymmetric. -/
theorem betterJob_asymm (b a : CrawlJob) (h : betterJob b a = true) :
    betterJob a b = false := by
  rw [betterJob_iff] at h
  rw [betterJob_false_iff]
  omega

/-- Non-betterness is transitive. -/
theorem betterJob_neg_trans (x b a : CrawlJob) (h1 : betterJob x b = false)
    (h2 : betterJob b a = false) : betterJob x a = false := by
  rw [betterJob_false_iff] at h1 h2 ⊢
  omega

/-- `selectQueued` finds nothing exactly when no row is queued. -/
theorem selectQueued_eq_none (st : List CrawlJob) :
    selectQueued st = none ↔ ∀ j ∈ st, j.status ≠ JobStatus.queued := by
  induction st with
  | nil => simp [selectQueued]
  | cons a rest ih =>
    rw [selectQueued]
    by_cases ha : a.status = JobStatus.queued
    · simp only [ha, if_true]
      constructor
      · intro h
        cases hr : selectQueued rest with
        | none => rw [hr] at h; cases h
        | some b =>
          rw [hr] at h
          have h2 : (if betterJob b a = true then some b else some a) = none := h
          by_cases hb : betterJob b a = true
          · rw [if_pos hb] at h2; cases h2
          · rw [if_neg hb] at h2; cases h2
      · intro h
        exact absurd ha (h a (List.mem_cons_self a rest))
    · simp only [ha, if_false]
      rw [ih]
      constructor
      · intro h j hj
        rcases List.mem_cons.mp hj with h1 | h1
        · exact h1 ▸ ha
        · exact h j h1
      · intro h j hj
        exact h j (List.mem_cons_of_mem a hj)

/-- The row `selectQueued` returns is a queued member of the store over
which no other queued member takes claim precedence. -/
theorem selectQueued_eq_some : ∀ (st : List CrawlJob) (j : CrawlJob),
    selectQueued st = some j →
    j ∈ st ∧ j.status = JobStatus.queued ∧
      ∀ x ∈ st, x.status = JobStatus.queued → betterJob x j = false
  | [], j, h => by cases h
  | a :: rest, j, h => by
    rw [selectQueued] at h
    by_cases ha : a.status = JobStatus.queued
    · rw [if_pos ha] at h
      cases hr : selectQueued rest with
      | none =>
        rw [hr] at h
        have h2 : some a = some j := h
        injection h2 with h2
        subst h2
        refine ⟨List.mem_cons_self a rest, ha, fun x hx hxq => ?_⟩
        rcases List.mem_cons.mp hx with h1 | h1
        · exact h1 ▸ betterJob_irrefl a
        · exact absurd hxq ((selectQueued_eq_none rest).mp hr x h1)
      | some b =>
        rw [hr] at h
        have h2 : (if betterJob b a = true then some b else some a) = some j := h
        obtain ⟨hbmem, hbq, hbbest⟩ := selectQueued_eq_some rest b hr
        by_cases hb : betterJob b a = true
        · rw [if_pos hb] at h2
          injection h2 with h2
          subst h2
          refine ⟨List.mem_cons_of_mem a hbmem, hbq, fun x hx hxq => ?_⟩
          rcases List.mem_cons.mp hx with h1 | h1
          · exact h1 ▸ betterJob_asymm b a hb
          · exact hbbest x h1 hxq
        · rw [if_neg hb] at h2
          injection h2 with h2
          subst h2
          refine ⟨List.mem_cons_self a rest, ha, fun x hx hxq => ?_⟩
          rcases List.mem_cons.mp hx with h1 | h1
          · exact h1 ▸ betterJob_irrefl a
          · exact betterJob_neg_trans x b a (hbbest x h1 hxq)
              (Bool.eq_false_iff.mpr hb)
    · rw [if_neg ha] at h
      obtain ⟨hmem, hq, hbest⟩ := selectQueued_eq_some rest j h
      refine ⟨List.mem_cons_of_mem a hmem, hq, fun x hx hxq => ?_⟩
      rcases List.mem_cons.mp hx with h1 | h1
      · exact absurd (h1 ▸ hxq) ha
      · exact hbest x h1 hxq

/-- With no queued row, `claimNext` reports no job and leaves the store
unchanged. -/
theorem claimNext_none (st : List CrawlJob) (now : Nat)
    (h : countQueued st = 0) : claimNext now st = (none, st) := by
  have hall : ∀ j ∈ st, j.status ≠ JobStatus.queued := by
    intro j hj
    rw [countQueued, List.length_eq_zero] at h
    intro hq
    have : j ∈ st.filter fun x => x.status == JobStatus.queued :=
      List.mem_filter.mpr ⟨hj, by simp [hq]⟩
    rw [h] at this
    cases this
  rw [claimNext, (selectQueued_eq_none st).mpr hall]

/-- With a queued row present, `claimNext` claims one. -/
theorem claimNext_some (st : List CrawlJob) (now : Nat)
    (h : 0 < countQueued st) :
    ∃ c st2, claimNext now st = (some c, st2) := by
  cases hs : selectQueued st with
  | none =>
    exfalso
    rw [countQueued] at h
    obtain ⟨j, hj⟩ := List.exists_mem_of_length_pos h
    have hmem := List.mem_filter.mp hj
    exact (selectQueued_eq_none st).mp hs j hmem.1 (by simpa using hmem.2)
  | some j =>
    exact ⟨startJob j now,
      st.map fun x => if x.page_id == j.page_id then startJob x now else x,
      by rw [claimNext, hs]⟩

/-- Claiming the single queued row empties the queue. -/
theorem countQueued_after_claim (st : List CrawlJob) (now : Nat)
    (c : CrawlJob) (st2 : List CrawlJob) (h1 : countQueued st = 1)
    (hcl : claimNext now st = (some c, st2)) : countQueued st2 = 0 := by
  cases hs : selectQueued st with
  | none =>
    rw [claimNext, hs] at hcl
    have hcl2 : ((none : Option CrawlJob), st) = (some c, st2) := hcl
    exact Option.noConfusion (congrArg Prod.fst hcl2)
  | some j =>
    rw [claimNext, hs] at hcl
    obtain ⟨hjmem, hjq, -⟩ := selectQueued_eq_some st j hs
    have hcl2 : (some (startJob j now),
        st.map fun x => if x.page_id == j.page_id then startJob x now else x) =
        ((some c : Option CrawlJob), st2) := hcl
    have hst2 : st2 = st.map fun x => if x.page_id == j.page_id then startJob x now else x :=
      (congrArg Prod.snd hcl2).symm
    have huniq : ∀ x ∈ st, x.status = JobStatus.queued → x = j := by
      intro x hx hxq
      rw [countQueued, List.length_eq_one] at h1
      obtain ⟨a, ha⟩ := h1
      have hja : j ∈ [a] := ha ▸ List.mem_filter.mpr ⟨hjmem, by simp [hjq]⟩
      have hxa : x ∈ [a] := ha ▸ List.mem_filter.mpr ⟨hx, by simp [hxq]⟩
      rw [List.mem_singleton] at hja hxa
      rw [hxa, hja]
    rw [hst2, countQueued, ← List.countP_eq_length_filter, List.countP_map,
      List.countP_eq_zero]
    intro x hx
    simp only [Function.comp]
    by_cases hpid : x.page_id == j.page_id
    · simp [hpid, startJob]
    · simp only [hpid, if_false]
      intro hxq
      have hxj : x = j := huniq x hx (by simpa using hxq)
      rw [hxj] at hpid
      simp at hpid

/-- A store with no queued rows yields only empty claims. -/
theorem runClaims_all_none (now : Nat) :
    ∀ (n : Nat) (st : List CrawlJob), countQueued st = 0 →
      runClaims n now st = List.replicate n none
  | 0, st, _ => rfl
  | Nat.succ n, st, h => by
    rw [runClaims]
    rw [claimNext_none st now h]
    rw [runClaims_all_none now n st h, List.replicate_succ]

/-- C4: `claimNext` claims a queued row of maximal priority, breaking
priority ties by oldest `updated_at`, transitions it to `running` with
`started_at` stamped; and under N concurrent callers — sequentialized by
claim atomicity — against a store with exactly one queued job, exactly one
caller receives a job and the other N − 1 receive none.
Modelled from the spec, since the backend Job Store implementation is not
among the sources. -/
theorem claimNext_spec (st : List CrawlJob) (now : Nat) :
    (∀ c st2, claimNext now st = (some c, st2) →
      ∃ j ∈ st, j.status = JobStatus.queued ∧ c = startJob j now ∧
        c.status = JobStatus.running ∧ c.started_at = some now ∧
        ∀ x ∈ st, x.status = JobStatus.queued → betterJob x j = false) ∧
    (∀ N, 1 ≤ N → countQueued st = 1 →
      ((runClaims N now st).filter fun r => r.isSome).length = 1 ∧
      ((runClaims N now st).filter fun r => r.isNone).length = N - 1) := by
  constructor
  · intro c st2 hcl
    cases hs : selectQueued st with
    | none =>
      rw [claimNext, hs] at hcl
      have hcl2 : ((none : Option CrawlJob), st) = (some c, st2) := hcl
      exact Option.noConfusion (congrArg Prod.fst hcl2)
    | some j =>
      rw [claimNext, hs] at hcl
      obtain ⟨hjmem, hjq, hjbest⟩ := selectQueued_eq_some st j hs
      have hcl2 : (some (startJob j now),
          st.map fun x => if x.page_id == j.page_id then startJob x now else x) =
          ((some c : Option CrawlJob), st2) := hcl
      have hc : c = startJob j now := by
        have h3 := congrArg Prod.fst hcl2
        injection h3 with h3
        exact h3.symm
      exact ⟨j, hjmem, hjq, hc, by rw [hc]; rfl, by rw [hc]; rfl, hjbest⟩
  · intro N hN h1
    obtain ⟨n, rfl⟩ : ∃ n, N = n + 1 := ⟨N - 1, by omega⟩
    obtain ⟨c, st2, hcl⟩ := claimNext_some st now (by omega)
    have h0 : countQueued st2 = 0 := countQueued_after_claim st now c st2 h1 hcl
    rw [runClaims]
    rw [hcl]
    rw [runClaims_all_none now n st2 h0]
    constructor
    · rw [List.filter_cons_of_pos (by rfl)]
      have : (List.replicate n (none : Option CrawlJob)).filter
          (fun r => r.isSome) = [] := by
        rw [List.filter_eq_nil_iff]
        intro a ha
        rw [List.eq_of_mem_replicate ha]
        simp
      rw [this]
      rfl
    · rw [List.filter_cons_of_neg (by simp)]
      have : (List.replicate n (none : Option CrawlJob)).filter
          (fun r => r.isNone) = List.replicate n none := by
        rw [List.filter_eq_self]
        intro a ha
        rw [List.eq_of_mem_replicate ha]
        rfl
      rw [this, List.length_replicate]
      omega

/-- C4, concrete instance: three concurrent callers against a store with
exactly one queued job produce exactly one claimed job and two empty
results. -/
theorem claimNext_spec_witness :
    (1 ≤ 3 ∧ countQueued exJobs = 1) ∧
    ((runClaims 3 0 exJobs).filter fun r => r.isSome).length = 1 ∧
    ((runClaims 3 0 exJobs).filter fun r => r.isNone).length = 3 - 1 :=
  ⟨⟨by decide, by decide⟩, (claimNext_spec exJobs 0).2 3 (by decide) (by decide)⟩

/-- C10: when the requested center page is absent from the pages table (the
`.single()` lookup errors or returns nothing), `fetchEgoGraph` does not
throw: it returns the requested id with empty node and edge lists after
that single query, performing no further queries. -/
theorem fetchEgoGraph_missing_center (db : DB) (pageId : Int) (limit : Nat)
    (h : ∀ p ∈ db.pages, p.page_id ≠ pageId) :
    fetchEgoGraph db pageId limit =
      ({ center_page_id := pageId, nodes := [], edges := [] }, 1) := by
  have hf : db.pages.find? (fun p => p.page_id == pageId) = none :=
    List.find?_eq_none.mpr fun p hp => by simpa using h p hp
  rw [fetchEgoGraph, hf]

/-- C10, concrete instance: page 99 is absent from the example database, so
the ego-graph response is empty, after one query. -/
theorem fetchEgoGraph_missing_center_witness :
    fetchEgoGraph exDB 99 5000 =
      ({ center_page_id := 99, nodes := [], edges := [] }, 1) :=
  fetchEgoGraph_missing_center exDB 99 5000 (by decide)

/-- C1 counterexample: in the example database the center page 1 has the
two direct neighbors 2 and 3, but a call with `limitNeighbors = 1`
truncates the out-link query to one row, so the response misses neighbor 3
and the edge to it — the claimed property fails as stated, because
`fetchEgoGraph` caps the neighbor queries at `limitNeighbors` rows. -/
theorem fetchEgoGraph_limit_counterexample : ¬ egoClaim exDB 1 1 := fun h =>
  absurd (h.2.1 3 (by decide)) (by decide)

/-- Shape of the `fetchEgoGraph` response when the center exists and the
neighbor limit does not truncate the out-link and in-link queries. -/
theorem fetchEgoGraph_untruncated (db : DB) (pageId : Int) (limit : Nat)
    (c : PageRow) (hc : db.pages.find? (fun p => p.page_id == pageId) = some c)
    (hout : (db.links.filter fun l => l.from_page_id == pageId).length ≤ limit)
    (hin : (db.links.filter fun l => l.to_page_id == pageId).length ≤ limit) :
    fetchEgoGraph db pageId limit =
      ({ center_page_id := pageId,
         nodes := (db.pages.filter fun p =>
             p.page_id ∈ (pageId :: egoNeighbors db pageId).dedup).map fun p =>
           { page_id := p.page_id, title := p.title, out_degree := p.out_degree,
             in_degree := p.in_degree, is_center := p.page_id == pageId },
         edges := (db.links.filter fun l =>
             l.from_page_id ∈ (pageId :: egoNeighbors db pageId).dedup ∧
             l.to_page_id ∈ (pageId :: egoNeighbors db pageId).dedup).map fun l =>
           { «from» := l.from_page_id, «to» := l.to_page_id } }, 5) := by
  rw [fetchEgoGraph, hc]
  rw [egoNeighbors]
  simp only [List.take_of_length_le hout, List.take_of_length_le hin]

/-- C1 amended: provided the center page exists, the links table satisfies
its foreign keys, and the center has at most `limitNeighbors` out-link rows
and at most `limitNeighbors` in-link rows (so the capped neighbor queries
are not truncated), `fetchEgoGraph` returns the center page, a node for
every direct neighbor, and exactly the links-table edges whose endpoints
both lie in the center-plus-neighbors set. -/
theorem fetchEgoGraph_spec (db : DB) (pageId : Int) (limit : Nat)
    (hcenter : ∃ p ∈ db.pages, p.page_id = pageId)
    (hfk : linksFK db.pages db.links)
    (hout : (db.links.filter fun l => l.from_page_id == pageId).length ≤ limit)
    (hin : (db.links.filter fun l => l.to_page_id == pageId).length ≤ limit) :
    egoClaim db pageId limit := by
  obtain ⟨p0, hp0, hp0id⟩ := hcenter
  have hfind : ∃ c, db.pages.find? (fun p => p.page_id == pageId) = some c := by
    cases hf : db.pages.find? (fun p => p.page_id == pageId) with
    | none =>
      exfalso
      have hne := List.find?_eq_none.mp hf p0 hp0
      simp only [beq_iff_eq] at hne
      exact hne hp0id
    | some c => exact ⟨c, rfl⟩
  obtain ⟨c, hc⟩ := hfind
  have hresp := fetchEgoGraph_untruncated db pageId limit c hc hout hin
  have hmemAll : ∀ x : Int, x ∈ (pageId :: egoNeighbors db pageId).dedup ↔
      (x = pageId ∨ x ∈ egoNeighbors db pageId) := fun x => by
    rw [List.mem_dedup, List.mem_cons]
  rw [egoClaim, hresp]
  refine ⟨?_, ?_, ?_, ?_⟩
  · -- the center node is present and flagged
    refine ⟨GraphNode.mk p0.page_id p0.title p0.out_degree p0.in_degree
        (p0.page_id == pageId),
      List.mem_map.mpr ⟨p0, List.mem_filter.mpr ⟨hp0, ?_⟩, rfl⟩, hp0id, by simp [hp0id]⟩
    rw [decide_eq_true_iff]
    exact (hmemAll p0.page_id).mpr (Or.inl hp0id)
  · -- every direct neighbor is a node
    intro q hq
    have hrow : ∃ p ∈ db.pages, p.page_id = q := by
      rw [egoNeighbors, List.mem_dedup, List.mem_append] at hq
      rcases hq with h1 | h1
      · rw [List.mem_map] at h1
        obtain ⟨l, hl, rfl⟩ := h1
        exact (hfk l (List.mem_filter.mp hl).1).2
      · rw [List.mem_map] at h1
        obtain ⟨l, hl, rfl⟩ := h1
        exact (hfk l (List.mem_filter.mp hl).1).1
    obtain ⟨p, hp, hpq⟩ := hrow
    refine ⟨GraphNode.mk p.page_id p.title p.out_degree p.in_degree
        (p.page_id == pageId),
      List.mem_map.mpr ⟨p, List.mem_filter.mpr ⟨hp, ?_⟩, rfl⟩, hpq⟩
    rw [decide_eq_true_iff]
    exact (hmemAll p.page_id).mpr (Or.inr (hpq ▸ hq))
  · -- every returned edge is a links row among center and neighbors
    intro e he
    rw [List.mem_map] at he
    obtain ⟨l, hl, rfl⟩ := he
    have hl2 := List.mem_filter.mp hl
    have hcond := decide_eq_true_iff.mp hl2.2
    refine ⟨l, hl2.1, rfl, rfl, ?_, ?_⟩
    · exact List.mem_cons.mpr ((hmemAll l.from_page_id).mp hcond.1)
    · exact List.mem_cons.mpr ((hmemAll l.to_page_id).mp hcond.2)
  · -- every links row among center and neighbors is returned
    intro l hl hfrom hto
    refine ⟨GraphEdge.mk l.from_page_id l.to_page_id,
      List.mem_map.mpr ⟨l, List.mem_filter.mpr ⟨hl, ?_⟩, rfl⟩, rfl, rfl⟩
    rw [decide_eq_true_iff]
    exact ⟨(hmemAll l.from_page_id).mpr (List.mem_cons.mp hfrom),
      (hmemAll l.to_page_id).mpr (List.mem_cons.mp hto)⟩

/-- C1 amended, concrete instance: with the default neighbor limit of 5000
the example database is far below the cap, and the ego graph of page 1 is
exactly as claimed. -/
theorem fetchEgoGraph_spec_witness : egoClaim exDB 1 5000 :=
  fetchEgoGraph_spec exDB 1 5000 ⟨{ page_id := 1, title := "A" }, by decide, rfl⟩
    (by unfold linksFK; decide) (by decide) (by decide)

/-- C8, concrete instance: a three-id input forms a single batch, which is
nonempty and within the 50-id limit. -/
theorem batchFetchWikipediaData_batching_witness :
    (([1, 2, 3] : List Int) ∈ wikiBatches ([1, 2, 3] : List Int)) ∧
    (([1, 2, 3] : List Int).length ≤ 50 ∧ ([1, 2, 3] : List Int) ≠ []) := by
  have hb : wikiBatches ([1, 2, 3] : List Int) = [[1, 2, 3]] := by
    rw [wikiBatches, List.take_of_length_le (by simp),
      List.drop_eq_nil_of_le (by simp), wikiBatches]
  have hm : ([1, 2, 3] : List Int) ∈ wikiBatches ([1, 2, 3] : List Int) := by
    rw [hb]
    exact List.mem_singleton.mpr rfl
  exact ⟨hm, (batchFetchWikipediaData_batching [1, 2, 3]).2.1 [1, 2, 3] hm⟩
